import Mathlib

/-!
Verification of the BotRoulette helper templates: a shallow embedding of
the tunnel relay client (generic-template/tunnel.js), the mailbox bridge
(openclaw-template/bridge.js with the inbox/outbox forwarder in the
OpenClaw server template), and the rate limiter shared by the responder
servers (generic-template/server.js, openclaw-template/server_http_api.js).
-/

namespace BotRoulette

/-- Model of a JavaScript JSON value, as produced by JSON.parse and
consumed by JSON.stringify in the templates. -/
inductive Json where
  | jnull : Json
  | jbool : Bool → Json
  | jnum : Int → Json
  | jstr : String → Json
  | jarr : List Json → Json
  | jobj : List (String × Json) → Json

/-- Escaping of a single character inside a JSON string literal
(backslash and double quote, the cases JSON.stringify always escapes;
control-character escapes are not needed by any template constant). -/
def escChar (c : Char) : String :=
  if c = '\\' then "\\\\"
  else if c = '"' then "\\\""
  else String.singleton c

/-- Escaping of a whole string body for a JSON string literal. -/
def escapeStr (s : String) : String :=
  String.join (s.data.map escChar)

/-- A quoted JSON string literal. -/
def quoteStr (s : String) : String :=
  "\"" ++ escapeStr s ++ "\""

mutual

/-- Model of JSON.stringify on the Json model. -/
def stringify : Json → String
  | .jnull => "null"
  | .jbool true => "true"
  | .jbool false => "false"
  | .jnum n => toString n
  | .jstr s => quoteStr s
  | .jarr l => "[" ++ stringifyArr l ++ "]"
  | .jobj l => "\x7b" ++ stringifyObj l ++ "\x7d"

/-- Comma-separated serialization of a JSON array body. -/
def stringifyArr : List Json → String
  | [] => ""
  | [x] => stringify x
  | x :: y :: xs => stringify x ++ "," ++ stringifyArr (y :: xs)

/-- Comma-separated serialization of a JSON object body. -/
def stringifyObj : List (String × Json) → String
  | [] => ""
  | [(k, v)] => quoteStr k ++ ":" ++ stringify v
  | (k, v) :: p :: xs => quoteStr k ++ ":" ++ stringify v ++ "," ++ stringifyObj (p :: xs)

end

/-- Field access on a JSON object (JavaScript obj.field, none when the
field is absent, i.e. the access yields undefined). -/
def getField (j : Json) (k : String) : Option Json :=
  match j with
  | .jobj fields => (fields.find? (fun kv => kv.1 = k)).map (fun kv => kv.2)
  | _ => none

/-! Tunnel relay client, generic-template/tunnel.js. -/

/-- A Node response-header value: a plain string, or an array of strings
(Node represents repeated headers such as set-cookie as arrays; tunnel.js
keeps only values with typeof v equal to string). -/
inductive HVal where
  | hstr : String → HVal
  | harr : List String → HVal
deriving Repr, DecidableEq

/-- An inbound request frame as destructured by handleRequest:
const id, method, path, body of msg. method and path are none when the
frame leaves them undefined, body is none when undefined. -/
structure RequestMsg where
  id : String
  method : Option String
  path : Option String
  body : Option Json

/-- A frame the tunnel client sends on the WebSocket: the auth frame sent
on open, the ping heartbeat, or a response frame correlated by id. -/
inductive Frame where
  | auth : String → Frame
  | ping : Frame
  | response : String → Nat → List (String × String) → String → Frame
deriving Repr, DecidableEq

/-- The id a frame responds to: some id for a response frame, none for
control frames. -/
def respId : Frame → Option String
  | .response i _ _ _ => some i
  | _ => none

/-- The headers carried by a frame (empty for control frames). -/
def frameHeaders : Frame → List (String × String)
  | .response _ _ hs _ => hs
  | _ => []

/-- JavaScript string-or-default: v or d is d when v is undefined or the
empty string (the only falsy string), used for path or / and
method or POST in handleRequest. -/
def jsOrStr (v : Option String) (d : String) : String :=
  match v with
  | none => d
  | some s => if s = "" then d else s

/-- The bodyStr computation of handleRequest: empty when body is null or
undefined, the string itself when body is a string, and
JSON.stringify(body) otherwise. -/
def bodyStrOf : Option Json → String
  | none => ""
  | some .jnull => ""
  | some (.jstr s) => s
  | some v => stringify v

/-- The fwdHeaders object of handleRequest: Content-Type always, plus a
Content-Length (UTF-8 byte length of the body) when the body string is
nonempty. -/
def fwdHeaders (bodyStr : String) : List (String × String) :=
  if bodyStr = "" then [("Content-Type", "application/json")]
  else [("Content-Type", "application/json"),
        ("Content-Length", toString bodyStr.utf8ByteSize)]

/-- The local HTTP request issued by handleRequest via http.request. -/
structure LocalReq where
  hostname : String
  port : Nat
  path : String
  method : String
  headers : List (String × String)
  body : String
deriving Repr, DecidableEq

/-- The local HTTP request handleRequest builds from an inbound request
frame: loopback host, configured port, defaulted path and method, the
fwdHeaders object, and the serialized body. -/
def buildLocalReq (p : RequestMsg) (localPort : Nat) : LocalReq :=
  { hostname := "127.0.0.1"
    port := localPort
    path := jsOrStr p.path "/"
    method := jsOrStr p.method "POST"
    headers := fwdHeaders (bodyStrOf p.body)
    body := bodyStrOf p.body }

/-- Outcome of the local HTTP call: a completed response (status code,
headers, concatenated body), a request error (connection failure), or the
25 s client-side timeout. Exactly one of the three callbacks of
handleRequest fires per request. -/
inductive LocalOutcome where
  | success : Nat → List (String × HVal) → String → LocalOutcome
  | connError : LocalOutcome
  | timeout : LocalOutcome

/-- The per-request deadline handleRequest passes to req.setTimeout. -/
def LOCAL_TIMEOUT_MS : Nat := 25000

/-- The skip set of handleRequest: response headers stripped before a
response frame is built. -/
def skipHeaders : List String :=
  ["content-length", "transfer-encoding", "connection",
   "keep-alive", "etag", "x-powered-by"]

/-- Model of JavaScript String.prototype.toLowerCase as used on header
names (character-wise lower-casing; header names are ASCII). -/
def lowerAscii (s : String) : String :=
  ⟨s.data.map Char.toLower⟩

/-- The respHeaders loop of handleRequest: keep exactly the entries whose
value is a plain string and whose lower-cased key is not in the skip set,
preserving key and value unchanged. -/
def stripRespHeaders (hs : List (String × HVal)) : List (String × String) :=
  hs.filterMap (fun kv =>
    match kv.2 with
    | .hstr v => if skipHeaders.contains (lowerAscii kv.1) then none else some (kv.1, v)
    | .harr _ => none)

/-- The frames handleRequest sends on the WebSocket for one inbound
request frame, given the outcome of the local call and whether
ws.readyState is OPEN at completion time: the success callback sends the
forwarded response, the error callback a 502 frame, the timeout callback
a 504 frame; every send is guarded by the readyState check. -/
def handleRequestSends (wsOpen : Bool) (p : RequestMsg) (oc : LocalOutcome) : List Frame :=
  if wsOpen then
    match oc with
    | .success st hs data => [.response p.id st (stripRespHeaders hs) data]
    | .connError =>
        [.response p.id 502 [("content-type", "application/json")]
          (stringify (.jobj [("error", .jstr "local server unreachable")]))]
    | .timeout =>
        [.response p.id 504 [("content-type", "application/json")]
          (stringify (.jobj [("error", .jstr "timeout")]))]
  else []

/-! Session lifecycle state machine of connect() in tunnel.js: the
module-level variables ws, pingInterval, reconnectDelay, driven by the
open, message, close, error events and the heartbeat interval ticks. -/

/-- The floor of the reconnect backoff (initial value of reconnectDelay
and the value assigned in the open handler). -/
def RECONNECT_FLOOR_MS : Nat := 1000

/-- The ceiling applied to the reconnect backoff in the close handler. -/
def RECONNECT_CEIL_MS : Nat := 30000

/-- The heartbeat period passed to setInterval in the open handler. -/
def PING_INTERVAL_MS : Nat := 25000

/-- An inbound control message as dispatched by the message handler. -/
inductive Msg where
  | authOk : String → Msg
  | request : RequestMsg → Msg
  | errMsg : String → Msg
  | unknown : Msg

/-- The observable state of the tunnel client: the current backoff delay,
whether the heartbeat interval is installed (pingInterval live, cleared
by the close handler), whether the current WebSocket is open, and a
counter naming the current Session (incremented on every open event, so
each Session has a distinct number). -/
structure TunnelState where
  reconnectDelay : Nat
  pingActive : Bool
  sessionOpen : Bool
  sessionNo : Nat
deriving Repr, DecidableEq

/-- The state at module load: reconnectDelay starts at 1000 and no socket
is open yet. -/
def initState : TunnelState :=
  { reconnectDelay := RECONNECT_FLOOR_MS
    pingActive := false
    sessionOpen := false
    sessionNo := 0 }

/-- An event delivered to the tunnel client: the WebSocket open, message,
close and error events, and a firing of the heartbeat interval. -/
inductive Ev where
  | evOpen : Ev
  | evMsg : Msg → Ev
  | evTick : Ev
  | evClose : Ev
  | evErr : Ev

/-- One event-handler step of connect(). Returns the new state and the
frames sent, each tagged with the number of the Session it is sent on.
The open handler sends auth, resets the delay to 1000 and installs the
heartbeat; the interval callback sends ping when ws.readyState is OPEN;
the close handler clears the interval and doubles the delay up to 30000;
the message and error handlers do not touch this state. -/
def step (apiKey : String) (s : TunnelState) : Ev → TunnelState × List (Nat × Frame)
  | .evOpen =>
      ({ reconnectDelay := RECONNECT_FLOOR_MS
         pingActive := true
         sessionOpen := true
         sessionNo := s.sessionNo + 1 },
       [(s.sessionNo + 1, .auth apiKey)])
  | .evMsg _ => (s, [])
  | .evTick =>
      (s, if s.pingActive && s.sessionOpen then [(s.sessionNo, .ping)] else [])
  | .evClose =>
      ({ s with pingActive := false
                sessionOpen := false
                reconnectDelay := min (s.reconnectDelay * 2) RECONNECT_CEIL_MS },
       [])
  | .evErr => (s, [])

/-- Running a sequence of events from a state, collecting all sent
frames in order. -/
def runFrom (apiKey : String) (s : TunnelState) : List Ev → TunnelState × List (Nat × Frame)
  | [] => (s, [])
  | e :: es =>
      let r := step apiKey s e
      let rest := runFrom apiKey r.1 es
      (rest.1, r.2 ++ rest.2)

/-- Whether an event can actually be delivered in a state: message events
only arrive while the socket is open, and a socket that is already open
does not fire open again. close may fire without a prior open (a failed
connection attempt), and error and ticks are unrestricted. -/
def evValid (s : TunnelState) : Ev → Bool
  | .evMsg _ => s.sessionOpen
  | .evOpen => !s.sessionOpen
  | _ => true

/-- Whether a whole event sequence is deliverable from a state. -/
def ValidTrace (apiKey : String) (s : TunnelState) : List Ev → Prop
  | [] => True
  | e :: es => evValid s e = true ∧ ValidTrace apiKey (step apiKey s e).1 es

/-- The reconnect delay stored after n consecutive close events from the
initial state (a run of consecutive connection failures). -/
def delayAfterCloses (apiKey : String) (n : Nat) : Nat :=
  ((runFrom apiKey initState (List.replicate n .evClose)).1).reconnectDelay

/-! Mailbox bridge: the inbox/outbox forwarder of the OpenClaw server
template's handleChat, and the worker loop processInbox of
openclaw-template/bridge.js. -/

/-- Content of a mailbox file: a value that JSON.parse recovers, or bytes
on which JSON.parse throws. writeFileSync of JSON.stringify(v) stores
jsonVal v. -/
inductive FileContent where
  | jsonVal : Json → FileContent
  | malformed : FileContent

/-- A snapshot of the mailbox directories, keyed by the id that names
each file (id.json). -/
structure MailboxFS where
  inbox : List (String × FileContent)
  outbox : List (String × FileContent)

/-- Lookup of the file named id.json in a directory listing. -/
def lookupFile (l : List (String × FileContent)) (i : String) : Option FileContent :=
  (l.find? (fun kv => kv.1 = i)).map (fun kv => kv.2)

/-- A filesystem operation performed by the forwarder or the worker. -/
inductive FSOp where
  | writeInbox : String → FileContent → FSOp
  | unlinkInbox : String → FSOp
  | writeOutbox : String → FileContent → FSOp
  | unlinkOutbox : String → FSOp

/-- What one iteration of the forwarder's polling loop observes for its
own outbox file: absent (existsSync false), parsed content, or a read
that fails to parse. -/
inductive PollCheck where
  | absent : PollCheck
  | parsed : Json → PollCheck
  | parseFail : PollCheck

/-- One poll of the outbox by handleChat: existsSync on outboxFile, then
JSON.parse of its content. -/
def checkOutbox (fs : MailboxFS) (i : String) : PollCheck :=
  match lookupFile fs.outbox i with
  | none => .absent
  | some (.jsonVal j) => .parsed j
  | some .malformed => .parseFail

/-- Result of the forwarder: the reply delivered from the completed
entry (data.reply, none when the field is absent), or the timeout or
parse-failure fallback. -/
inductive ForwardOutcome where
  | delivered : Option Json → ForwardOutcome
  | fallback : ForwardOutcome

/-- The polling loop of handleChat, over the sequence of mailbox
snapshots it observes at successive polls before its 25 s deadline: on a
parsed completed entry it deletes that entry and delivers data.reply; on
a parse failure it breaks to the fallback; when the snapshots are
exhausted (the deadline passed) it falls back. It never touches the
inbox. -/
def forwarderLoop (i : String) : List MailboxFS → ForwardOutcome × List FSOp
  | [] => (.fallback, [])
  | fs :: rest =>
      match checkOutbox fs i with
      | .absent => forwarderLoop i rest
      | .parsed j => (.delivered (getField j "reply"), [.unlinkOutbox i])
      | .parseFail => (.fallback, [])

/-- The pending-entry JSON handleChat writes to the inbox. -/
def inboxEntryJson (i sessionId message timestamp : String) : Json :=
  .jobj [("id", .jstr i), ("sessionId", .jstr sessionId),
         ("message", .jstr message), ("timestamp", .jstr timestamp)]

/-- The whole mailbox path of handleChat for one request: write the
pending entry, then poll the outbox until delivery, parse failure or the
deadline. -/
def forwarderRun (i sessionId message timestamp : String)
    (snaps : List MailboxFS) : ForwardOutcome × List FSOp :=
  let r := forwarderLoop i snaps
  (r.1, .writeInbox i (.jsonVal (inboxEntryJson i sessionId message timestamp)) :: r.2)

/-- The JSON body handleChat returns to the caller for each outcome
(JSON.stringify of the response object; an undefined reply field is
dropped by JSON.stringify, and the timeout fallback is the fixed
still-thinking message). -/
def forwarderResponse : ForwardOutcome → String
  | .delivered (some j) => stringify (.jobj [("response", j)])
  | .delivered none => "\x7b\x7d"
  | .fallback =>
      stringify (.jobj [("response",
        .jstr "still thinking on that one. try again in a moment.")])

/-- The fields the worker destructures from a pending entry: const id,
message, sessionId of data in processInbox. -/
def entryFields (j : Json) : Option (String × String × String) :=
  match getField j "id", getField j "sessionId", getField j "message" with
  | some (.jstr i), some (.jstr sid), some (.jstr m) => some (i, sid, m)
  | _, _, _ => none

/-- The id the catch path of processInbox recovers (data.id, when it is
a string). -/
def idField (j : Json) : Option String :=
  match getField j "id" with
  | some (.jstr i) => some i
  | _ => none

/-- One file's processing by processInbox in bridge.js, abstracting the
openclaw CLI call as an oracle from (sessionId, message) to the reply
text: on a well-formed entry it writes the reply to the outbox file named
by the entry's own id and deletes the inbox file; when the entry is
malformed or lacks a string id, the catch path writes the glitch reply
keyed by data.id when that exists, else does nothing. -/
def workerStep (oracle : String → String → String) (fileId : String)
    (c : FileContent) : List FSOp :=
  match c with
  | .malformed => []
  | .jsonVal j =>
      match entryFields j with
      | some (i, sid, m) =>
          [.writeOutbox i (.jsonVal (.jobj [("reply", .jstr (oracle sid m))])),
           .unlinkInbox fileId]
      | none =>
          match idField j with
          | some i =>
              [.writeOutbox i
                 (.jsonVal (.jobj [("reply", .jstr "brain glitched. try again.")])),
               .unlinkInbox fileId]
          | none => []

/-! Rate limiter shared by generic-template/server.js and
openclaw-template/server_http_api.js. -/

/-- The sliding-window length of rateLimit. -/
def RATE_WINDOW_MS : Int := 60000

/-- The maximum number of accepted hits per window. -/
def RATE_MAX_HITS : Nat := 30

/-- The pruning step of rateLimit: keep the timestamps t of the window
with now - t strictly below 60000. -/
def pruneWindow (now : Int) (window : List Int) : List Int :=
  window.filter (fun t => now - t < RATE_WINDOW_MS)

/-- The rateLimit function of the responder servers: prune the per-ip
window, return true (limited) without recording when 30 or more
timestamps remain, else push the current time and return false. The
second component is the stored window after the call. -/
def rateLimit (now : Int) (window : List Int) : Bool × List Int :=
  let pruned := pruneWindow now window
  if RATE_MAX_HITS ≤ pruned.length then (true, pruned)
  else (false, pruned ++ [now])

/-! Theorems. -/

/-- A sample inbound request frame used by the witnesses. -/
def sampleReq : RequestMsg :=
  { id := "r1", method := none, path := none, body := none }

/-- Claim C1: for every inbound request frame, handleRequest sends at most
one response frame carrying the frame's id (exactly zero or one frame is
sent, every sent frame is a response with that id), and when the
WebSocket is still open at completion exactly one is sent, whatever the
outcome of the local call was. -/
theorem handleRequest_response_correlation (wsOpen : Bool) (p : RequestMsg)
    (oc : LocalOutcome) :
    ((handleRequestSends wsOpen p oc).filter (fun f => respId f = some p.id)).length
      = (if wsOpen then 1 else 0)
    ∧ (handleRequestSends wsOpen p oc).length = (if wsOpen then 1 else 0)
    ∧ (∀ f ∈ handleRequestSends wsOpen p oc, respId f = some p.id) := by
  cases wsOpen <;> cases oc <;>
    simp [handleRequestSends, respId, List.filter]

/-- Witness for C1 at a concrete request and outcome. -/
theorem handleRequest_response_correlation_witness :
    ((handleRequestSends true sampleReq .timeout).filter
        (fun f => respId f = some sampleReq.id)).length = 1
    ∧ (handleRequestSends false sampleReq .timeout).length = 0 := by
  have h1 := handleRequest_response_correlation true sampleReq .timeout
  have h2 := handleRequest_response_correlation false sampleReq .timeout
  exact ⟨by simpa using h1.1, by simpa using h2.2.1⟩

/-- Claim C2: a local connection error yields a 502 response frame and
the 25 s deadline a 504 response frame, in both cases with a JSON error
object serialized as the body. -/
theorem handleRequest_error_frames (p : RequestMsg) :
    handleRequestSends true p .connError
      = [Frame.response p.id 502 [("content-type", "application/json")]
           (stringify (.jobj [("error", .jstr "local server unreachable")]))]
    ∧ handleRequestSends true p .timeout
      = [Frame.response p.id 504 [("content-type", "application/json")]
           (stringify (.jobj [("error", .jstr "timeout")]))]
    ∧ LOCAL_TIMEOUT_MS = 25000 := by
  exact ⟨rfl, rfl, rfl⟩

/-- Claim C5: the stripped header list never contains a key whose
lower-cased form is in the skip set; every string-valued header outside
the skip set is forwarded unchanged; and no frame handleRequest sends
carries a skipped header key. -/
theorem response_headers_stripped :
    (∀ (hs : List (String × HVal)) (kv : String × String),
        kv ∈ stripRespHeaders hs → skipHeaders.contains (lowerAscii kv.1) = false)
    ∧ (∀ (hs : List (String × HVal)) (k v : String),
        (k, HVal.hstr v) ∈ hs → skipHeaders.contains (lowerAscii k) = false →
        (k, v) ∈ stripRespHeaders hs)
    ∧ (∀ (wsOpen : Bool) (p : RequestMsg) (oc : LocalOutcome) (f : Frame)
         (kv : String × String), f ∈ handleRequestSends wsOpen p oc →
        kv ∈ frameHeaders f → skipHeaders.contains (lowerAscii kv.1) = false) := by
  have stripped : ∀ (hs : List (String × HVal)) (kv : String × String),
      kv ∈ stripRespHeaders hs → skipHeaders.contains (lowerAscii kv.1) = false := by
    intro hs kv hmem
    rw [stripRespHeaders, List.mem_filterMap] at hmem
    obtain ⟨⟨k0, v0⟩, _, hf⟩ := hmem
    cases v0 with
    | hstr v0 =>
        dsimp only at hf
        by_cases hc : skipHeaders.contains (lowerAscii k0) = true
        · rw [if_pos hc] at hf
          exact absurd hf (by simp)
        · rw [if_neg hc] at hf
          obtain rfl : (k0, v0) = kv := Option.some.inj hf
          simpa using hc
    | harr l => exact absurd hf (by simp)
  refine ⟨stripped, ?_, ?_⟩
  · intro hs k v hmem hc
    rw [stripRespHeaders, List.mem_filterMap]
    refine ⟨(k, .hstr v), hmem, ?_⟩
    simp only []
    rw [if_neg (by rw [hc]; exact Bool.false_ne_true)]
  · intro wsOpen p oc f kv hf hkv
    cases wsOpen with
    | false => exact absurd hf (by simp [handleRequestSends])
    | true =>
        cases oc with
        | success st hs data =>
            rw [handleRequestSends] at hf
            simp only [if_true, List.mem_singleton] at hf
            subst hf
            exact stripped hs kv hkv
        | connError =>
            rw [handleRequestSends] at hf
            simp only [if_true, List.mem_singleton] at hf
            subst hf
            simp only [frameHeaders, List.mem_singleton] at hkv
            subst hkv
            decide
        | timeout =>
            rw [handleRequestSends] at hf
            simp only [if_true, List.mem_singleton] at hf
            subst hf
            simp only [frameHeaders, List.mem_singleton] at hkv
            subst hkv
            decide

/-- Witness for C5 on a concrete header list containing a skipped key, a
kept key, and an array value. -/
theorem response_headers_stripped_witness :
    (("X-Custom", "1") ∈
        stripRespHeaders
          [("Content-Length", .hstr "12"), ("X-Custom", .hstr "1"),
           ("Set-Cookie", .harr ["a"])])
    ∧ skipHeaders.contains (lowerAscii "X-Custom") = false := by
  have h := response_headers_stripped
  refine ⟨h.2.1 _ "X-Custom" "1" (by simp) (by decide), by decide⟩

/-- Claim C7: the forwarded local call defaults the method to POST and
the path to the root when unspecified, always carries the
application/json content type, and serializes the frame body: unchanged
when already a string, by JSON.stringify when a non-null non-string
value, and empty when null or undefined. -/
theorem local_request_built (p : RequestMsg) (port : Nat) :
    (p.method = none → (buildLocalReq p port).method = "POST")
    ∧ (p.path = none → (buildLocalReq p port).path = "/")
    ∧ ("Content-Type", "application/json") ∈ (buildLocalReq p port).headers
    ∧ (∀ s, p.body = some (Json.jstr s) → (buildLocalReq p port).body = s)
    ∧ ((p.body = none ∨ p.body = some Json.jnull) → (buildLocalReq p port).body = "")
    ∧ (∀ v, p.body = some v → (∀ s, v ≠ Json.jstr s) → v ≠ Json.jnull →
        (buildLocalReq p port).body = stringify v) := by
  refine ⟨?_, ?_, ?_, ?_, ?_, ?_⟩
  · intro h; simp [buildLocalReq, jsOrStr, h]
  · intro h; simp [buildLocalReq, jsOrStr, h]
  · show _ ∈ fwdHeaders _
    rw [fwdHeaders]
    split <;> simp
  · intro s h; simp [buildLocalReq, bodyStrOf, h]
  · rintro (h | h) <;> simp [buildLocalReq, bodyStrOf, h]
  · intro v h hstr hnull
    cases v with
    | jnull => exact absurd rfl hnull
    | jstr s => exact absurd rfl (hstr s)
    | jbool b => simp [buildLocalReq, bodyStrOf, h]
    | jnum n => simp [buildLocalReq, bodyStrOf, h]
    | jarr l => simp [buildLocalReq, bodyStrOf, h]
    | jobj l => simp [buildLocalReq, bodyStrOf, h]

/-- Witness for C7 at a concrete frame with a non-string body and
unspecified method and path. -/
theorem local_request_built_witness :
    (buildLocalReq { id := "r2", method := none, path := none,
                     body := some (.jobj [("message", .jstr "hi")]) } 8900).method
      = "POST"
    ∧ (buildLocalReq { id := "r2", method := none, path := none,
                       body := some (.jobj [("message", .jstr "hi")]) } 8900).body
      = stringify (.jobj [("message", .jstr "hi")]) := by
  have h := local_request_built
    { id := "r2", method := none, path := none,
      body := some (.jobj [("message", .jstr "hi")]) } 8900
  refine ⟨h.1 rfl, h.2.2.2.2.2 _ rfl (fun s => by simp) (by simp)⟩

/-- Claim C10: rateLimit first prunes timestamps outside the trailing
60 s window, returns true exactly when at least 30 remain (leaving the
window unchanged, recording nothing), and otherwise records the current
time and returns false. -/
theorem rateLimit_window_semantics (now : Int) (window : List Int) :
    ((rateLimit now window).1 = true ↔
        RATE_MAX_HITS ≤ (pruneWindow now window).length)
    ∧ ((rateLimit now window).1 = true →
        (rateLimit now window).2 = pruneWindow now window)
    ∧ ((rateLimit now window).1 = false →
        (rateLimit now window).2 = pruneWindow now window ++ [now])
    ∧ (∀ t ∈ pruneWindow now window, now - t < RATE_WINDOW_MS)
    ∧ (∀ t ∈ window, now - t < RATE_WINDOW_MS → t ∈ pruneWindow now window) := by
  refine ⟨?_, ?_, ?_, ?_, ?_⟩
  · rw [rateLimit]
    split <;> simp_all
  · rw [rateLimit]
    split <;> simp_all
  · rw [rateLimit]
    split <;> simp_all
  · intro t ht
    rw [pruneWindow, List.mem_filter] at ht
    simpa using ht.2
  · intro t ht hlt
    rw [pruneWindow, List.mem_filter]
    exact ⟨ht, by simpa using hlt⟩

/-- Witness for C10: a window with 30 recent hits is limited and left
unchanged, a window with 29 gains the current timestamp. -/
theorem rateLimit_window_semantics_witness :
    (rateLimit 100000 (List.replicate 30 90000)).1 = true
    ∧ (rateLimit 100000 (List.replicate 30 90000)).2 = List.replicate 30 90000
    ∧ (rateLimit 100000 (List.replicate 29 90000)).1 = false
    ∧ (rateLimit 100000 (List.replicate 29 90000)).2
        = List.replicate 29 90000 ++ [100000] := by
  have h30 := rateLimit_window_semantics 100000 (List.replicate 30 90000)
  have h29 := rateLimit_window_semantics 100000 (List.replicate 29 90000)
  have e30 : pruneWindow 100000 (List.replicate 30 (90000 : Int))
      = List.replicate 30 90000 := by decide
  have e29 : pruneWindow 100000 (List.replicate 29 (90000 : Int))
      = List.replicate 29 90000 := by decide
  have hl : (rateLimit 100000 (List.replicate 30 (90000 : Int))).1 = true := by
    rw [h30.1, e30]; decide
  have hnl : (rateLimit 100000 (List.replicate 29 (90000 : Int))).1 = false := by
    cases hb : (rateLimit 100000 (List.replicate 29 (90000 : Int))).1 with
    | false => rfl
    | true =>
        have := (h30.1.mpr)
        have h2 := h29.1.mp hb
        rw [e29] at h2
        simp [RATE_MAX_HITS] at h2
  refine ⟨hl, ?_, hnl, ?_⟩
  · rw [h30.2.1 hl, e30]
  · rw [h29.2.2.1 hnl, e29]

/-! Lemmas about the session state machine. -/

/-- Running an appended event list composes the resulting states. -/
lemma runFrom_append_fst (k : String) (es fs : List Ev) :
    ∀ s : TunnelState,
      (runFrom k s (es ++ fs)).1 = (runFrom k (runFrom k s es).1 fs).1 := by
  induction es with
  | nil => intro s; rfl
  | cons e es ih => intro s; simpa [runFrom] using ih (step k s e).1

/-- A trace of an appended event list is valid exactly when the first
part is valid and the second part is valid from the reached state. -/
lemma validTrace_append (k : String) (es fs : List Ev) :
    ∀ s : TunnelState,
      ValidTrace k s (es ++ fs) ↔
        ValidTrace k s es ∧ ValidTrace k (runFrom k s es).1 fs := by
  induction es with
  | nil => intro s; simp [ValidTrace, runFrom]
  | cons e es ih =>
      intro s
      simp [ValidTrace, runFrom, ih (step k s e).1, and_assoc]

/-- One step preserves the invariant that an open session has the
backoff at its floor. -/
lemma floor_inv_step (k : String) (s : TunnelState) (e : Ev)
    (h : s.sessionOpen = true → s.reconnectDelay = RECONNECT_FLOOR_MS) :
    ((step k s e).1).sessionOpen = true →
      ((step k s e).1).reconnectDelay = RECONNECT_FLOOR_MS := by
  cases e with
  | evOpen => intro _; rfl
  | evMsg m => exact h
  | evTick => exact h
  | evClose => intro hopen; exact absurd hopen (by simp [step])
  | evErr => exact h

/-- Any run preserves the invariant that an open session has the backoff
at its floor. -/
lemma floor_inv_run (k : String) (es : List Ev) :
    ∀ s : TunnelState,
      (s.sessionOpen = true → s.reconnectDelay = RECONNECT_FLOOR_MS) →
      ((runFrom k s es).1).sessionOpen = true →
        ((runFrom k s es).1).reconnectDelay = RECONNECT_FLOOR_MS := by
  induction es with
  | nil => intro s h; exact h
  | cons e es ih =>
      intro s h
      have := ih (step k s e).1 (floor_inv_step k s e h)
      simpa [runFrom] using this

/-- Every ping frame a run emits is tagged with the session number
current when it was sent, so its tag is at least the starting session
number, and strictly larger when the starting state is closed (a new
open event must occur first). -/
lemma ping_tag_bound (k : String) (es : List Ev) :
    ∀ (s : TunnelState) (pr : Nat × Frame), pr ∈ (runFrom k s es).2 →
      pr.2 = Frame.ping →
      s.sessionNo ≤ pr.1 ∧ (s.sessionOpen = false → s.sessionNo < pr.1) := by
  induction es with
  | nil =>
      intro s pr hpr _
      exact absurd hpr (by simp [runFrom])
  | cons e es ih =>
      intro s pr hpr hping
      simp only [runFrom, List.mem_append] at hpr
      rcases hpr with hpr | hpr
      · cases e with
        | evOpen =>
            simp only [step, List.mem_singleton] at hpr
            rw [hpr] at hping
            exact absurd hping (by simp)
        | evMsg m => exact absurd hpr (by simp [step])
        | evTick =>
            simp only [step] at hpr
            by_cases hc : (s.pingActive && s.sessionOpen) = true
            · rw [if_pos hc, List.mem_singleton] at hpr
              rw [hpr]
              refine ⟨le_refl _, fun hcl => ?_⟩
              rw [Bool.and_eq_true] at hc
              rw [hc.2] at hcl
              exact absurd hcl (by simp)
            · rw [if_neg hc] at hpr
              exact absurd hpr (by simp)
        | evClose => exact absurd hpr (by simp [step])
        | evErr => exact absurd hpr (by simp [step])
      · have hrec := ih (step k s e).1 pr hpr hping
        cases e with
        | evOpen =>
            have h1 : s.sessionNo + 1 ≤ pr.1 := hrec.1
            exact ⟨by omega, fun _ => by omega⟩
        | evMsg m => exact hrec
        | evTick => exact hrec
        | evClose =>
            have h2 : s.sessionNo < pr.1 := hrec.2 rfl
            exact ⟨by omega, fun _ => h2⟩
        | evErr => exact hrec

/-- Claim C3: across consecutive close events the stored reconnect delay
starts at the 1000 ms floor, each close updates it to
min(2 * delay, 30000), its closed form is min(1000 * 2 ^ n, 30000), and
it always stays between 1000 and 30000. -/
theorem reconnect_backoff_sequence (apiKey : String) :
    delayAfterCloses apiKey 0 = RECONNECT_FLOOR_MS
    ∧ (∀ n, delayAfterCloses apiKey (n + 1)
        = min (2 * delayAfterCloses apiKey n) RECONNECT_CEIL_MS)
    ∧ (∀ n, delayAfterCloses apiKey n
        = min (RECONNECT_FLOOR_MS * 2 ^ n) RECONNECT_CEIL_MS)
    ∧ (∀ n, RECONNECT_FLOOR_MS ≤ delayAfterCloses apiKey n
        ∧ delayAfterCloses apiKey n ≤ RECONNECT_CEIL_MS)
    ∧ (∀ s : TunnelState, ((step apiKey s .evClose).1).reconnectDelay
        = min (s.reconnectDelay * 2) RECONNECT_CEIL_MS) := by
  have hsucc : ∀ n, delayAfterCloses apiKey (n + 1)
      = min (delayAfterCloses apiKey n * 2) RECONNECT_CEIL_MS := by
    intro n
    rw [delayAfterCloses, delayAfterCloses, List.replicate_succ',
        runFrom_append_fst]
    rfl
  have hclosed : ∀ n, delayAfterCloses apiKey n
      = min (RECONNECT_FLOOR_MS * 2 ^ n) RECONNECT_CEIL_MS := by
    intro n
    induction n with
    | zero => rfl
    | succ n ih =>
        rw [hsucc n, ih, pow_succ, RECONNECT_FLOOR_MS, RECONNECT_CEIL_MS]
        omega
  refine ⟨rfl, ?_, hclosed, ?_, fun s => rfl⟩
  · intro n
    rw [hsucc n, Nat.mul_comm]
  · intro n
    rw [hclosed n]
    have h2 : 1 ≤ 2 ^ n := Nat.one_le_two_pow
    rw [RECONNECT_FLOOR_MS, RECONNECT_CEIL_MS]
    constructor <;> omega

/-- Witness for C3 at concrete close counts. -/
theorem reconnect_backoff_sequence_witness :
    delayAfterCloses "k" 2 = 4000 ∧ delayAfterCloses "k" 9 = 30000 := by
  have h := reconnect_backoff_sequence "k"
  constructor
  · rw [h.2.2.1 2]; decide
  · rw [h.2.2.1 9]; decide

/-- Claim C4: in any valid trace ending with the receipt of an auth_ok
frame, the reconnect backoff after that event equals its 1000 ms floor
(the open handler of the same session already reset it, and nothing
between open and the message changes it). -/
theorem auth_ok_backoff_at_floor (k u : String) (es : List Ev)
    (h : ValidTrace k initState (es ++ [Ev.evMsg (Msg.authOk u)])) :
    ((runFrom k initState (es ++ [Ev.evMsg (Msg.authOk u)])).1).reconnectDelay
      = RECONNECT_FLOOR_MS := by
  rw [validTrace_append] at h
  obtain ⟨h1, h2⟩ := h
  have hopen : ((runFrom k initState es).1).sessionOpen = true := h2.1
  have hfloor := floor_inv_run k es initState (fun _ => rfl) hopen
  rw [runFrom_append_fst]
  simpa [runFrom, step] using hfloor

/-- Witness for C4 on the trace open then auth_ok. -/
theorem auth_ok_backoff_at_floor_witness :
    ValidTrace "k" initState ([Ev.evOpen] ++ [Ev.evMsg (Msg.authOk "u")])
    ∧ ((runFrom "k" initState
          ([Ev.evOpen] ++ [Ev.evMsg (Msg.authOk "u")])).1).reconnectDelay
        = RECONNECT_FLOOR_MS := by
  refine ⟨⟨rfl, rfl, trivial⟩, ?_⟩
  exact auth_ok_backoff_at_floor "k" "u" [Ev.evOpen] ⟨rfl, rfl, trivial⟩

/-- Claim C6: the heartbeat period is 25 s; the close handler clears the
heartbeat; while a session is open and the interval installed each tick
sends exactly one ping on that session; and from a closed state no ping
is ever again sent tagged with that session's number (every later ping
belongs to a strictly newer session). -/
theorem heartbeat_stops_on_close (k : String) (s : TunnelState) (es : List Ev)
    (h : s.sessionOpen = false) :
    PING_INTERVAL_MS = 25000
    ∧ (∀ s0 : TunnelState, ((step k s0 .evClose).1).pingActive = false)
    ∧ (∀ s0 : TunnelState, s0.sessionOpen = true → s0.pingActive = true →
        (step k s0 .evTick).2 = [(s0.sessionNo, Frame.ping)])
    ∧ (∀ pr ∈ (runFrom k s es).2, pr.2 = Frame.ping → s.sessionNo < pr.1) := by
  refine ⟨rfl, fun s0 => rfl, ?_, ?_⟩
  · intro s0 h1 h2
    simp [step, h1, h2]
  · intro pr hpr hping
    exact (ping_tag_bound k es s pr hpr hping).2 h

/-- Witness for C6: from the initial closed state, a tick emits nothing
and every ping of a later session carries a fresh session number. -/
theorem heartbeat_stops_on_close_witness :
    initState.sessionOpen = false
    ∧ (∀ pr ∈ (runFrom "k" initState [Ev.evTick, Ev.evOpen, Ev.evTick]).2,
        pr.2 = Frame.ping → initState.sessionNo < pr.1) := by
  exact ⟨rfl,
    (heartbeat_stops_on_close "k" initState
      [Ev.evTick, Ev.evOpen, Ev.evTick] rfl).2.2.2⟩

/-! Lemmas about the mailbox forwarder and worker. -/

/-- When no poll ever sees a parsed completed entry, the polling loop
falls back and performs no filesystem operation. -/
lemma forwarderLoop_no_parse (i : String) (snaps : List MailboxFS)
    (h : ∀ fs ∈ snaps, ∀ j, checkOutbox fs i ≠ PollCheck.parsed j) :
    forwarderLoop i snaps = (.fallback, []) := by
  induction snaps with
  | nil => rfl
  | cons fs rest ih =>
      cases hc : checkOutbox fs i with
      | absent =>
          rw [forwarderLoop, hc]
          exact ih (fun fs' hm j => h fs' (List.mem_cons_of_mem _ hm) j)
      | parsed j => exact absurd hc (h fs (List.mem_cons_self _ _) j)
      | parseFail => rw [forwarderLoop, hc]

/-- A delivered reply always comes from a parsed outbox entry, observed
in some polled snapshot at the forwarder's own id. -/
lemma forwarderLoop_delivered (i : String) (snaps : List MailboxFS) :
    ∀ r : Option Json, (forwarderLoop i snaps).1 = ForwardOutcome.delivered r →
      ∃ fs ∈ snaps, ∃ j, lookupFile fs.outbox i = some (.jsonVal j)
        ∧ r = getField j "reply" := by
  induction snaps with
  | nil =>
      intro r hr
      exact absurd hr (by simp [forwarderLoop])
  | cons fs rest ih =>
      intro r hr
      rw [forwarderLoop] at hr
      cases hc : checkOutbox fs i with
      | absent =>
          rw [hc] at hr
          obtain ⟨fs', hm, j, hj, hrj⟩ := ih r hr
          exact ⟨fs', List.mem_cons_of_mem _ hm, j, hj, hrj⟩
      | parsed j =>
          rw [hc] at hr
          have hrj : getField j "reply" = r := ForwardOutcome.delivered.inj hr
          refine ⟨fs, List.mem_cons_self _ _, j, ?_, hrj.symm⟩
          rw [checkOutbox] at hc
          cases hl : lookupFile fs.outbox i with
          | none =>
              rw [hl] at hc
              exact absurd hc (by simp)
          | some c =>
              cases c with
              | jsonVal j0 =>
                  rw [hl] at hc
                  dsimp only at hc
                  rw [PollCheck.parsed.inj hc]
              | malformed =>
                  rw [hl] at hc
                  exact absurd hc (by simp)
      | parseFail =>
          rw [hc] at hr
          exact absurd hr (by simp)

/-- A well-formed pending entry's destructured id is its id field. -/
lemma entryFields_id (j : Json) (i sid m : String)
    (h : entryFields j = some (i, sid, m)) :
    getField j "id" = some (.jstr i) := by
  rw [entryFields] at h
  split at h
  · rename_i heq1 heq2 heq3
    obtain ⟨rfl, rfl, rfl⟩ : _ ∧ _ ∧ _ := by
      simpa using h
    exact heq1
  · exact absurd h (by simp)

/-- The id the catch path recovers is the entry's id field. -/
lemma idField_id (j : Json) (i : String) (h : idField j = some i) :
    getField j "id" = some (.jstr i) := by
  rw [idField] at h
  split at h
  · rename_i heq
    rw [Option.some.inj h] at heq
    exact heq
  · exact absurd h (by simp)

/-- Claim C8: when the completed entry never appears and parses before
the forwarder's deadline, handleChat replies with the fallback JSON
message, and its only filesystem operation is the initial write of the
pending entry: the inbox entry is never deleted and remains for the
worker. -/
theorem forwarder_timeout_keeps_pending (i sid m ts : String)
    (snaps : List MailboxFS)
    (h : ∀ fs ∈ snaps, ∀ j, checkOutbox fs i ≠ PollCheck.parsed j) :
    (forwarderRun i sid m ts snaps).1 = ForwardOutcome.fallback
    ∧ (forwarderRun i sid m ts snaps).2
        = [FSOp.writeInbox i (.jsonVal (inboxEntryJson i sid m ts))]
    ∧ forwarderResponse (forwarderRun i sid m ts snaps).1
        = stringify (.jobj [("response",
            .jstr "still thinking on that one. try again in a moment.")]) := by
  have hl := forwarderLoop_no_parse i snaps h
  refine ⟨?_, ?_, ?_⟩ <;> simp [forwarderRun, hl, forwarderResponse]

/-- Witness for C8 on a snapshot sequence whose outbox stays empty. -/
theorem forwarder_timeout_keeps_pending_witness :
    (∀ fs ∈ ([⟨[], []⟩] : List MailboxFS), ∀ j,
        checkOutbox fs "a" ≠ PollCheck.parsed j)
    ∧ (forwarderRun "a" "s" "m" "t" [⟨[], []⟩]).1 = ForwardOutcome.fallback
    ∧ (forwarderRun "a" "s" "m" "t" [⟨[], []⟩]).2
        = [FSOp.writeInbox "a" (.jsonVal (inboxEntryJson "a" "s" "m" "t"))] := by
  have hh : ∀ fs ∈ ([⟨[], []⟩] : List MailboxFS), ∀ j,
      checkOutbox fs "a" ≠ PollCheck.parsed j := by
    intro fs hfs j heq
    rw [List.mem_singleton] at hfs
    subst hfs
    simp [checkOutbox, lookupFile] at heq
  have h := forwarder_timeout_keeps_pending "a" "s" "m" "t" [⟨[], []⟩] hh
  exact ⟨hh, h.1, h.2.1⟩

/-- Claim C9: replies are correlated strictly by id: a delivered reply
was read from the completed entry named by the forwarder's own id; a
snapshot whose outbox has no entry under that id delivers nothing (so a
newer request's completion cannot be received by an older one's
forwarder); and every completed entry the worker writes is keyed by the
id field of the pending entry it processed. -/
theorem reply_correlated_by_id :
    (∀ (i sid m ts : String) (snaps : List MailboxFS) (r : Option Json),
        (forwarderRun i sid m ts snaps).1 = ForwardOutcome.delivered r →
        ∃ fs ∈ snaps, ∃ j, lookupFile fs.outbox i = some (.jsonVal j)
          ∧ r = getField j "reply")
    ∧ (∀ (fs : MailboxFS) (i : String),
        (∀ kv ∈ fs.outbox, kv.1 ≠ i) → checkOutbox fs i = PollCheck.absent)
    ∧ (∀ (oracle : String → String → String) (fid : String) (c : FileContent)
         (i : String) (c2 : FileContent),
        FSOp.writeOutbox i c2 ∈ workerStep oracle fid c →
        ∃ j, c = FileContent.jsonVal j ∧ getField j "id" = some (.jstr i)) := by
  refine ⟨?_, ?_, ?_⟩
  · intro i sid m ts snaps r hr
    exact forwarderLoop_delivered i snaps r hr
  · intro fs i hno
    rw [checkOutbox]
    have : lookupFile fs.outbox i = none := by
      rw [lookupFile]
      rw [List.find?_eq_none.mpr]
      · rfl
      · intro kv hkv
        simpa using hno kv hkv
    rw [this]
  · intro oracle fid c i c2 hmem
    cases c with
    | malformed => exact absurd hmem (by simp [workerStep])
    | jsonVal j =>
        refine ⟨j, rfl, ?_⟩
        cases hef : entryFields j with
        | some t =>
            obtain ⟨i0, sid, m⟩ := t
            simp only [workerStep, hef, List.mem_cons,
              List.not_mem_nil, or_false] at hmem
            rcases hmem with hmem | hmem
            · injection hmem with h1 h2
              rw [h1]
              exact entryFields_id j i0 sid m hef
            · exact absurd hmem (by simp)
        | none =>
            cases hif : idField j with
            | some i0 =>
                simp only [workerStep, hef, hif, List.mem_cons,
                  List.not_mem_nil, or_false] at hmem
                rcases hmem with hmem | hmem
                · injection hmem with h1 h2
                  rw [h1]
                  exact idField_id j i0 hif
                · exact absurd hmem (by simp)
            | none =>
                simp only [workerStep, hef, hif, List.not_mem_nil] at hmem

/-- Witness for C9: a snapshot completing only id b delivers nothing for
id a, and one completing id a delivers exactly its reply. -/
theorem reply_correlated_by_id_witness :
    checkOutbox ⟨[], [("b", .jsonVal (.jobj [("reply", .jstr "forB")]))]⟩ "a"
      = PollCheck.absent
    ∧ (∃ fs ∈ ([⟨[], [("a", .jsonVal (.jobj [("reply", .jstr "forA")]))]⟩] :
          List MailboxFS), ∃ j,
        lookupFile fs.outbox "a" = some (.jsonVal j)
          ∧ some (Json.jstr "forA") = getField j "reply") := by
  have h := reply_correlated_by_id
  refine ⟨h.2.1 _ "a" ?_, h.1 "a" "s" "m" "t" _ (some (.jstr "forA")) rfl⟩
  intro kv hkv
  rw [List.mem_singleton] at hkv
  subst hkv
  simp

end BotRoulette
